import Mathlib

/-!
Verification of the Exhibit content ingestion pipeline
(`apps/server/src/lib/storage.ts`, `apps/server/src/lib/image-processor.ts`,
`apps/server/src/routes/upload.ts`, as given in guide 04-POSTING-AND-UPLOAD).

The TypeScript is embedded shallowly: buffers are abstracted by their byte
length together with the results of the external parsers that the code runs
on them (sharp metadata, the sharp decode pipeline, and the image-size
library), storage is an environment mapping keys to stored objects and write
outcomes, and every route is a pure function of those inputs.
-/

namespace Exhibit

/-- Result of `await sharp(buffer).metadata()`.  In the TypeScript typings
every field of the metadata object is optional, and `validateImage` guards
each check on the field being truthy, so each field is modelled as an
`Option`. -/
structure SharpMetadata where
  format : Option String
  width : Option Nat
  height : Option Nat
deriving DecidableEq, Repr

/-- A raw image buffer, abstracted by its byte length and by what the
external parsers used in `image-processor.ts` report about its bytes:
`sharpMeta` is `sharp(buffer).metadata()` (`none` models the promise
rejecting on an unparseable buffer), `sharpDecode` is the pixel grid the
sharp resize pipeline decodes (`none` models the resize calls throwing on
corrupt pixel data), `sizeOfRes` is `sizeOf(buffer)` from the image-size
library (`none` models it throwing; each component is an optional field of
its result object), and `blurHashStr` is the string the blurhash encoder
produces for this buffer. -/
structure ImageBuffer where
  bufLen : Nat
  sharpMeta : Option SharpMetadata
  sharpDecode : Option (Nat × Nat)
  sizeOfRes : Option (Option Nat × Option Nat)
  blurHashStr : String

/-- Result type of `validateImage`: `{ valid: boolean; error?: string }`,
with the error string present exactly on the invalid side. -/
inductive ValidationResult where
  | valid : ValidationResult
  | invalid (error : String) : ValidationResult
deriving DecidableEq, Repr

/-- The 50 MiB hard ceiling `50 * 1024 * 1024` used by both the zod schema
of the request-upload route and `validateImage`. -/
def maxFileBytes : Nat := 50 * 1024 * 1024

/-- `const validFormats = ['jpeg', 'png', 'webp', 'tiff']` in
`validateImage`. -/
def validFormats : List String := ["jpeg", "png", "webp", "tiff"]

/-- JavaScript truthiness test `metadata.width && metadata.width > bound`:
the field must be present, nonzero (0 is falsy) and above the bound. -/
def truthyDimGt (x : Option Nat) (bound : Nat) : Bool :=
  match x with
  | some w => decide (w ≠ 0 ∧ bound < w)
  | none => false

/-- JavaScript truthiness test
`metadata.format && !validFormats.includes(metadata.format)`: the field must
be present, a nonempty string (the empty string is falsy) and outside the
allowed list. -/
def truthyFormatBad (f : Option String) : Bool :=
  match f with
  | some s => decide (s ≠ "" ∧ s ∉ validFormats)
  | none => false

/-- `validateImage` from `image-processor.ts`.  The buffer is passed as its
length plus the sharp metadata result; a rejected metadata promise
(`none`) lands in the catch branch.  The checks run in source order: size,
width, height, format, each guarded by truthiness of the inspected field. -/
def validateImage (bufLen : Nat) (meta : Option SharpMetadata) : ValidationResult :=
  match meta with
  | none => .invalid "Invalid image file"
  | some m =>
    if maxFileBytes < bufLen then .invalid "File size exceeds 50MB"
    else if truthyDimGt m.width 8000 then .invalid "Image width exceeds 8000px"
    else if truthyDimGt m.height 8000 then .invalid "Image height exceeds 8000px"
    else if truthyFormatBad m.format then .invalid "Unsupported image format"
    else .valid

/-- An encoded derivative buffer, abstracted by its pixel dimensions. -/
structure ImgBuf where
  w : Nat
  h : Nat
deriving DecidableEq, Repr

/-- The `ProcessedImage` interface of `image-processor.ts`: original
dimensions and byte size, the two derivative buffers, and the blur hash. -/
structure ProcessedImage where
  origWidth : Nat
  origHeight : Nat
  fileSize : Nat
  thumbnail : ImgBuf
  medium : ImgBuf
  blurHash : String
deriving DecidableEq, Repr

/-- Nearest-integer division, modelling the rounding sharp applies to the
proportionally scaled axis. -/
def roundDiv (a b : Nat) : Nat := (2 * a + b) / (2 * b)

/-- A rectangular region of the source pixel grid. -/
structure CropRegion where
  left : Nat
  top : Nat
  width : Nat
  height : Nat
deriving DecidableEq, Repr

/-- The source region that sharp `resize(400, 400, fit cover, position
center)` keeps: for a square target the region is the largest centered
square, so the longer axis is trimmed symmetrically around the center. -/
def coverCrop (w h : Nat) : CropRegion :=
  if h ≤ w then ⟨(w - h) / 2, 0, h, h⟩ else ⟨0, (h - w) / 2, w, w⟩

/-- Model of the sharp call
`resize(400, 400, { fit: cover, position: center })`: pick the centered
square crop of the source and scale it to the exact 400 by 400 target.
Returns the chosen source crop region and the output buffer dimensions. -/
def coverResize400 (w h : Nat) : CropRegion × ImgBuf :=
  (coverCrop w h, ⟨400, 400⟩)

/-- Output dimensions of the sharp call
`resize(1200, null, { fit: inside, withoutEnlargement: true })`: only the
width is bounded; a source at most 1200 wide is left at its original size,
a wider source is scaled down to width 1200 with the height scaled
proportionally (at least one pixel). -/
def mediumDims (w h : Nat) : Nat × Nat :=
  if w ≤ 1200 then (w, h) else (1200, max 1 (roundDiv (h * 1200) w))

/-- JavaScript truthiness of an optional number: `0` and `undefined` are
falsy. -/
def truthyNat : Option Nat → Option Nat
  | some 0 => none
  | some (n + 1) => some (n + 1)
  | none => none

/-- `processImage` from `image-processor.ts`.  The original dimensions are
re-derived with `sizeOf` (image-size), throwing when either reported field
is falsy; the three sharp transforms then run on the decoded pixel grid
(throwing when the decode fails); the result carries the derivative buffers
and the blur hash.  `none` models a thrown error. -/
def processImage (img : ImageBuffer) : Option ProcessedImage :=
  match img.sizeOfRes with
  | none => none
  | some (ow, oh) =>
    match truthyNat ow, truthyNat oh with
    | some w, some h =>
      match img.sharpDecode with
      | none => none
      | some (dw, dh) =>
        some { origWidth := w, origHeight := h, fileSize := img.bufLen,
               thumbnail := (coverResize400 dw dh).2,
               medium := ⟨(mediumDims dw dh).1, (mediumDims dw dh).2⟩,
               blurHash := img.blurHashStr }
    | _, _ => none

/-- The object key template of `generateUploadUrl` in `storage.ts`:
`uploads/userId/timestamp-fileName`, with the timestamp from
`Date.now()`. -/
def fileKeyFor (userId fileName : String) (now : Nat) : String :=
  "uploads/" ++ userId ++ "/" ++ toString now ++ "-" ++ fileName

/-- Modelled from the spec: the time-boxed write grant minted by the object
storage collaborator (spec section 6); the AWS presigner called by
`generateUploadUrl` is external to the repository, so the signed URL is
modelled as a deterministic string of the key and expiry. -/
def signedUrlFor (key : String) (expiresIn : Nat) : String :=
  "https://s3.example/" ++ key ++ "?expires=" ++ toString expiresIn

/-- The presign expiry passed by `generateUploadUrl`: `expiresIn: 300`,
five minutes. -/
def presignExpirySeconds : Nat := 300

/-- The pair returned by `generateUploadUrl fileName contentType userId`. -/
structure UploadTicket where
  uploadUrl : String
  fileKey : String
deriving DecidableEq, Repr

/-- `generateUploadUrl` from `storage.ts`: build the owner-namespaced,
timestamped key and presign a PUT for it with a 300 second expiry. -/
def generateUploadUrl (fileName _contentType userId : String) (now : Nat) : UploadTicket :=
  { uploadUrl := signedUrlFor (fileKeyFor userId fileName now) presignExpirySeconds,
    fileKey := fileKeyFor userId fileName now }

/-- `const validTypes = ['image/jpeg', 'image/png', 'image/webp',
'image/tiff']` in the request-upload route. -/
def validTypes : List String := ["image/jpeg", "image/png", "image/webp", "image/tiff"]

/-- Response of the request-upload route: a 400 rejection or the ticket
payload `{ uploadUrl, fileKey, expiresIn }`. -/
inductive RequestUploadResponse where
  | rejected (error : String) : RequestUploadResponse
  | ok (uploadUrl fileKey : String) (expiresIn : Nat) : RequestUploadResponse
deriving DecidableEq, Repr

/-- Externally visible side effects of one route invocation: how many
storage interactions and database writes it performed. -/
structure SideEffects where
  storageCalls : Nat
  dbWrites : Nat
deriving DecidableEq, Repr

/-- The request-upload route of `upload.ts`.  The zod schema bounds
`fileSize` by 50 MiB before the handler runs; the handler rejects content
types outside `validTypes` and otherwise presigns an upload URL (the one
storage interaction).  The route touches no database. -/
def requestUpload (userId fileName contentType : String) (fileSize now : Nat) :
    RequestUploadResponse × SideEffects :=
  if maxFileBytes < fileSize then (.rejected "Invalid request body", ⟨0, 0⟩)
  else if contentType ∉ validTypes then (.rejected "Invalid file type", ⟨0, 0⟩)
  else
    let t := generateUploadUrl fileName contentType userId now
    (.ok t.uploadUrl t.fileKey 300, ⟨1, 0⟩)

/-- `getPublicUrl` from `storage.ts` with the CDN base of the sample
environment. -/
def getPublicUrl (fileKey : String) : String :=
  "https://cdn.exhibit.com/" ++ fileKey

/-- Thumbnail derivative key of the process-upload route:
`fileKey + "-thumb"`. -/
def thumbKeyFor (fileKey : String) : String := fileKey ++ "-thumb"

/-- Medium derivative key of the process-upload route:
`fileKey + "-medium"`. -/
def mediumKeyFor (fileKey : String) : String := fileKey ++ "-medium"

/-- Modelled from the spec: the object storage collaborator contract
(spec section 6, `put`, `get`); the helpers `downloadFromS3` and
`uploadToS3` invoked by the process-upload route are not declared in the
repository.  `object` is the stored object under a key (`none` is
notFound), `putOk` is whether a write to a key succeeds. -/
structure StorageEnv where
  object : String → Option ImageBuffer
  putOk : String → Bool

/-- Response of the process-upload route: the 400 validation error, the
success JSON, or an unhandled thrown error (the route has no try/catch). -/
inductive ProcessUploadResponse where
  | validationError (error : String) : ProcessUploadResponse
  | ok (imageUrl thumbnailUrl mediumUrl blurHash : String)
       (width height fileSize : Nat) : ProcessUploadResponse
  | thrown (msg : String) : ProcessUploadResponse
deriving DecidableEq, Repr

/-- Storage writes and delete attempts performed by one route invocation,
in order. -/
structure StorageTrace where
  written : List String
  deleteAttempts : List String
deriving DecidableEq, Repr

/-- The process-upload route of `upload.ts`: download the object, validate
it, process it, then write the thumbnail and the medium derivative
sequentially under the deterministic keys.  A failing step throws and the
error propagates; the route never calls `deleteFile`, so no compensating
cleanup is attempted and later writes after a failure are skipped. -/
def processUpload (env : StorageEnv) (fileKey : String) :
    ProcessUploadResponse × StorageTrace :=
  match env.object fileKey with
  | none => (.thrown "download failed", ⟨[], []⟩)
  | some img =>
    match validateImage img.bufLen img.sharpMeta with
    | .invalid e => (.validationError e, ⟨[], []⟩)
    | .valid =>
      match processImage img with
      | none => (.thrown "processing failed", ⟨[], []⟩)
      | some p =>
        if env.putOk (thumbKeyFor fileKey) then
          if env.putOk (mediumKeyFor fileKey) then
            (.ok (getPublicUrl fileKey) (getPublicUrl (thumbKeyFor fileKey))
                 (getPublicUrl (mediumKeyFor fileKey)) p.blurHash
                 p.origWidth p.origHeight p.fileSize,
             ⟨[thumbKeyFor fileKey, mediumKeyFor fileKey], []⟩)
          else (.thrown "upload failed", ⟨[thumbKeyFor fileKey], []⟩)
        else (.thrown "upload failed", ⟨[], []⟩)

/-- The process-upload route reads no clock and performs no expiry check:
its behavior at wall-clock time `now` is `processUpload` unchanged.  This
definition records that time-independence of the source explicitly so that
statements about attempts finishing after ticket expiry can be made. -/
def processUploadAt (_now : Nat) (env : StorageEnv) (fileKey : String) :
    ProcessUploadResponse × StorageTrace :=
  processUpload env fileKey

/-- The rejection predicate exactly as the specification words it for the
validator: reject when the format is not in the allowed set, a dimension
exceeds 8000 px, the byte length exceeds 50 MiB, or the parse fails.  Used
only to compare the specification against `validateImage`. -/
def specRejects (bufLen : Nat) (meta : Option SharpMetadata) : Bool :=
  match meta with
  | none => true
  | some m =>
    decide (maxFileBytes < bufLen)
    || (match m.width with | some w => decide (8000 < w) | none => false)
    || (match m.height with | some h => decide (8000 < h) | none => false)
    || !(validFormats.any (fun f => m.format == some f))

/-- The sequence of object keys issued for a sequence of ticket requests,
each request being owner, file name and issuance timestamp. -/
def issueTickets (reqs : List (String × String × Nat)) : List String :=
  reqs.map (fun r => fileKeyFor r.1 r.2.1 r.2.2)

/-! ### Concrete fixtures used by witnesses and counterexamples -/

/-- A tall, within-limits source image: a 1000 by 3000 JPEG of 4 MB, with
both parsers agreeing on its dimensions. -/
def imgTall : ImageBuffer :=
  { bufLen := 4000000,
    sharpMeta := some ⟨some "jpeg", some 1000, some 3000⟩,
    sharpDecode := some (1000, 3000),
    sizeOfRes := some (some 1000, some 3000),
    blurHashStr := "bhT" }

/-- The concrete 3000 by 2000 JPEG of 4 MB from the specification
scenario. -/
def imgWide : ImageBuffer :=
  { bufLen := 4000000,
    sharpMeta := some ⟨some "jpeg", some 3000, some 2000⟩,
    sharpDecode := some (3000, 2000),
    sizeOfRes := some (some 3000, some 2000),
    blurHashStr := "bhW" }

/-- The processed result of `imgWide`. -/
def imgWideOut : ProcessedImage :=
  { origWidth := 3000, origHeight := 2000, fileSize := 4000000,
    thumbnail := ⟨400, 400⟩, medium := ⟨1200, 800⟩, blurHash := "bhW" }

/-! ### Helper lemmas -/

lemma truthyDimGt_eq_false_iff (x : Option Nat) (b : Nat) :
    truthyDimGt x b = false ↔ ∀ w, x = some w → w ≤ b := by
  cases x with
  | none => simp [truthyDimGt]
  | some w =>
    simp only [truthyDimGt, decide_eq_false_iff_not, Option.some.injEq]
    constructor
    · intro hne w2 hw2
      subst hw2
      omega
    · intro hb hcontra
      have := hb w rfl
      omega

lemma truthyDimGt_eq_true_iff (x : Option Nat) (b : Nat) :
    truthyDimGt x b = true ↔ ∃ w, x = some w ∧ w ≠ 0 ∧ b < w := by
  cases x with
  | none => simp [truthyDimGt]
  | some w => simp [truthyDimGt]

lemma truthyFormatBad_eq_false_iff (f : Option String) :
    truthyFormatBad f = false ↔ ∀ s, f = some s → s = "" ∨ s ∈ validFormats := by
  cases f with
  | none => simp [truthyFormatBad]
  | some s =>
    simp only [truthyFormatBad, decide_eq_false_iff_not, Option.some.injEq]
    constructor
    · intro hne s2 hs2
      subst hs2
      tauto
    · intro hb hcontra
      have := hb s rfl
      tauto

lemma truthyFormatBad_eq_true_iff (f : Option String) :
    truthyFormatBad f = true ↔ ∃ s, f = some s ∧ s ≠ "" ∧ s ∉ validFormats := by
  cases f with
  | none => simp [truthyFormatBad]
  | some s => simp [truthyFormatBad]

/-- Anatomy of a successful `processImage` run: the dimensions come from
the truthy image-size fields, the byte size from the buffer, and the two
derivative buffers from the two sharp resize calls on the decoded grid. -/
lemma processImage_eq_some (img : ImageBuffer) (p : ProcessedImage)
    (hp : processImage img = some p) :
    ∃ ow oh w h dw dh,
      img.sizeOfRes = some (ow, oh) ∧ truthyNat ow = some w ∧
      truthyNat oh = some h ∧ img.sharpDecode = some (dw, dh) ∧
      p = { origWidth := w, origHeight := h, fileSize := img.bufLen,
            thumbnail := (coverResize400 dw dh).2,
            medium := ⟨(mediumDims dw dh).1, (mediumDims dw dh).2⟩,
            blurHash := img.blurHashStr } := by
  unfold processImage at hp
  cases hso : img.sizeOfRes with
  | none => rw [hso] at hp; exact absurd hp (by simp)
  | some pr =>
    obtain ⟨ow, oh⟩ := pr
    rw [hso] at hp
    dsimp only at hp
    cases htw : truthyNat ow with
    | none => rw [htw] at hp; exact absurd hp (by simp)
    | some w =>
      rw [htw] at hp
      cases hth : truthyNat oh with
      | none => rw [hth] at hp; exact absurd hp (by simp)
      | some h =>
        rw [hth] at hp
        cases hdec : img.sharpDecode with
        | none => rw [hdec] at hp; exact absurd hp (by simp)
        | some d =>
          obtain ⟨dw, dh⟩ := d
          rw [hdec] at hp
          refine ⟨ow, oh, w, h, dw, dh, rfl, htw, hth, rfl, ?_⟩
          injection hp with hp
          exact hp.symm

lemma mediumDims_spec (w h : Nat) (hh : 1 ≤ h) :
    (mediumDims w h).1 ≤ 1200 ∧ (mediumDims w h).1 ≤ w ∧
    (mediumDims w h).2 ≤ h ∧ (w ≤ 1200 → mediumDims w h = (w, h)) := by
  unfold mediumDims
  by_cases hw : w ≤ 1200
  · simp [hw]
  · simp only [if_neg hw]
    refine ⟨le_refl 1200, by omega, ?_, fun h2 => absurd h2 hw⟩
    have hdiv : roundDiv (h * 1200) w ≤ h := by
      unfold roundDiv
      have hpos : 0 < 2 * w := by omega
      have hlt : 2 * (h * 1200) + w < (h + 1) * (2 * w) := by nlinarith
      have := (Nat.div_lt_iff_lt_mul hpos).mpr hlt
      omega
    exact max_le hh hdiv

lemma coverCrop_spec (w h : Nat) :
    (coverCrop w h).width = min w h ∧ (coverCrop w h).height = min w h ∧
    (coverCrop w h).left = (w - min w h) / 2 ∧
    (coverCrop w h).top = (h - min w h) / 2 := by
  unfold coverCrop
  by_cases hc : h ≤ w
  · have hmin : min w h = h := Nat.min_eq_right hc
    simp [hc, hmin, Nat.sub_eq_zero_of_le (le_refl h)]
  · have hw : w ≤ h := by omega
    have hmin : min w h = w := Nat.min_eq_left hw
    simp [hc, hmin, Nat.sub_eq_zero_of_le (le_refl w)]

/-- A buffer on which the two dimension parsers disagree: the sharp
metadata header reports 100 by 100 while image-size (and the decoded
pixel grid) report 200 by 150. -/
def imgMismatch : ImageBuffer :=
  { bufLen := 1000,
    sharpMeta := some ⟨some "jpeg", some 100, some 100⟩,
    sharpDecode := some (200, 150),
    sizeOfRes := some (some 200, some 150),
    blurHashStr := "bhM" }

/-- Storage holding the scenario image under one key, with every write
succeeding. -/
def envAllOk : StorageEnv :=
  { object := fun k => if k == "uploads/u1/7-art.jpg" then some imgWide else none,
    putOk := fun _ => true }

/-- Storage holding the scenario image, where only the thumbnail write
succeeds and the medium write fails. -/
def envMediumPutFails : StorageEnv :=
  { object := fun k => if k == "uploads/u1/7-art.jpg" then some imgWide else none,
    putOk := fun k => k == "uploads/u1/7-art.jpg-thumb" }

/-- Storage holding the parser-disagreement image under key k7. -/
def envMismatch : StorageEnv :=
  { object := fun k => if k == "k7" then some imgMismatch else none,
    putOk := fun _ => true }

/-- Storage holding the scenario image under the key of a ticket issued at
time 0, with every write succeeding. -/
def envTicketed : StorageEnv :=
  { object := fun k =>
      if k == fileKeyFor "u1" "a.jpg" 0 then some imgWide else none,
    putOk := fun _ => true }

/-! ### Claim C1 — medium preview bounds -/

/-- C1, counterexample.  A valid in-limits 1000 by 3000 JPEG passes
validation, and `processImage` leaves its medium preview at 1000 by 3000
(`withoutEnlargement` suppresses any resize because the width is already
at most 1200), so the long axis of the medium preview is 3000, far above
the 1200 bound the claim asserts for the long axis. -/
theorem mediumPreview_longAxis_cex :
    validateImage imgTall.bufLen imgTall.sharpMeta = .valid ∧
    processImage imgTall = some
      { origWidth := 1000, origHeight := 3000, fileSize := 4000000,
        thumbnail := ⟨400, 400⟩, medium := ⟨1000, 3000⟩, blurHash := "bhT" } ∧
    ¬ (max 1000 3000 ≤ 1200) := by
  refine ⟨by decide, by decide, by decide⟩

/-- C1, amended.  The medium preview bounds only the width: its width is
at most 1200 px and at most the source width, its height is at most the
source height, and a source at most 1200 wide is kept at its original
dimensions (never upscaled).  The long axis itself is not bounded. -/
theorem processImage_medium_bounds (img : ImageBuffer) (p : ProcessedImage)
    (dw dh : Nat) (hdec : img.sharpDecode = some (dw, dh)) (hdh : 1 ≤ dh)
    (hp : processImage img = some p) :
    p.medium.w ≤ 1200 ∧ p.medium.w ≤ dw ∧ p.medium.h ≤ dh ∧
    (dw ≤ 1200 → p.medium = ⟨dw, dh⟩) := by
  obtain ⟨ow, oh, w, h, dw2, dh2, hso, htw, hth, hdec2, hpe⟩ :=
    processImage_eq_some img p hp
  rw [hdec] at hdec2
  injection hdec2 with hdec2
  injection hdec2 with hdw hdh2
  subst hdw
  subst hdh2
  subst hpe
  obtain ⟨h1, h2, h3, h4⟩ := mediumDims_spec dw dh hdh
  refine ⟨h1, h2, h3, fun hle => ?_⟩
  have := h4 hle
  simp only [this]

/-- C1, witness: the amended statement at the 3000 by 2000 scenario image,
whose medium preview is 1200 by 800. -/
theorem processImage_medium_bounds_witness :
    imgWide.sharpDecode = some (3000, 2000) ∧
    processImage imgWide = some imgWideOut ∧
    (imgWideOut.medium.w ≤ 1200 ∧ imgWideOut.medium.w ≤ 3000 ∧
     imgWideOut.medium.h ≤ 2000 ∧ (3000 ≤ 1200 → imgWideOut.medium = ⟨3000, 2000⟩)) :=
  ⟨rfl, by decide,
   processImage_medium_bounds imgWide imgWideOut 3000 2000 rfl (by decide) (by decide)⟩

/-! ### Claim C2 — the validator rejection condition -/

/-- C2, counterexample.  A 10 byte buffer whose sharp metadata parse
succeeds but reports no format field is accepted by `validateImage`, even
though the claim (whose rejection condition demands the true byte-content
format be in the allowed set) requires rejection: the format guard is
skipped when the field is absent. -/
theorem validateImage_spec_reject_cex :
    specRejects 10 (some ⟨none, some 100, some 100⟩) = true ∧
    validateImage 10 (some ⟨none, some 100, some 100⟩) = .valid := by
  refine ⟨by decide, by decide⟩

/-- C2, amended.  `validateImage` accepts exactly when the metadata parse
succeeds, the byte length is at most 50 MiB, every reported dimension is
at most 8000 px, and any reported format is either the (falsy) empty
string or in the allowed set — each guard applies only to fields the
metadata actually reports, and the decision uses nothing but the bytes
(the function receives no filename or declared content type). -/
theorem validateImage_valid_iff (len : Nat) (meta : Option SharpMetadata) :
    validateImage len meta = .valid ↔
      ∃ m, meta = some m ∧ len ≤ maxFileBytes ∧
        (∀ w, m.width = some w → w ≤ 8000) ∧
        (∀ h, m.height = some h → h ≤ 8000) ∧
        (∀ f, m.format = some f → f = "" ∨ f ∈ validFormats) := by
  cases meta with
  | none => simp [validateImage]
  | some m =>
    simp only [validateImage]
    by_cases h1 : maxFileBytes < len
    · simp only [if_pos h1]
      constructor
      · intro h; exact absurd h (by simp)
      · rintro ⟨m2, -, hlen, -, -, -⟩; omega
    · simp only [if_neg h1]
      by_cases h2 : truthyDimGt m.width 8000 = true
      · simp only [h2, if_true]
        constructor
        · intro h; exact absurd h (by simp)
        · rintro ⟨m2, hm2, -, hw, -, -⟩
          injection hm2 with hm2
          subst hm2
          obtain ⟨w, hws, hw0, hwgt⟩ := (truthyDimGt_eq_true_iff _ _).mp h2
          have := hw w hws
          omega
      · have h2f : truthyDimGt m.width 8000 = false := by
          revert h2; cases truthyDimGt m.width 8000 <;> simp
        simp only [h2f, Bool.false_eq_true, if_false]
        by_cases h3 : truthyDimGt m.height 8000 = true
        · simp only [h3, if_true]
          constructor
          · intro h; exact absurd h (by simp)
          · rintro ⟨m2, hm2, -, -, hh, -⟩
            injection hm2 with hm2
            subst hm2
            obtain ⟨hv, hhs, hh0, hhgt⟩ := (truthyDimGt_eq_true_iff _ _).mp h3
            have := hh hv hhs
            omega
        · have h3f : truthyDimGt m.height 8000 = false := by
            revert h3; cases truthyDimGt m.height 8000 <;> simp
          simp only [h3f, Bool.false_eq_true, if_false]
          by_cases h4 : truthyFormatBad m.format = true
          · simp only [h4, if_true]
            constructor
            · intro h; exact absurd h (by simp)
            · rintro ⟨m2, hm2, -, -, -, hf⟩
              injection hm2 with hm2
              subst hm2
              obtain ⟨s, hfs, hs0, hsmem⟩ := (truthyFormatBad_eq_true_iff _).mp h4
              have := hf s hfs
              tauto
          · have h4f : truthyFormatBad m.format = false := by
              revert h4; cases truthyFormatBad m.format <;> simp
            simp only [h4f, Bool.false_eq_true, if_false]
            constructor
            · intro _
              exact ⟨m, rfl, by omega,
                (truthyDimGt_eq_false_iff _ _).mp h2f,
                (truthyDimGt_eq_false_iff _ _).mp h3f,
                (truthyFormatBad_eq_false_iff _).mp h4f⟩
            · intro _; trivial

/-- C2, witness: the amended equivalence applied at the scenario image,
whose metadata reports the jpeg format and 3000 by 2000 dimensions. -/
theorem validateImage_valid_iff_witness :
    validateImage 4000000 (some ⟨some "jpeg", some 3000, some 2000⟩) = .valid ↔
      ∃ m, (some ⟨some "jpeg", some 3000, some 2000⟩ : Option SharpMetadata) = some m ∧
        4000000 ≤ maxFileBytes ∧
        (∀ w, m.width = some w → w ≤ 8000) ∧
        (∀ h, m.height = some h → h ≤ 8000) ∧
        (∀ f, m.format = some f → f = "" ∨ f ∈ validFormats) :=
  validateImage_valid_iff 4000000 (some ⟨some "jpeg", some 3000, some 2000⟩)

/-! ### Claim C4 — thumbnail dimensions and crop policy -/

/-- C4, confirmed.  Every successful `processImage` run produces a
thumbnail of exactly 400 by 400 pixels, and the sharp cover resize that
produces it crops a square source region (width equal to height, each the
shorter source axis, so both axes are scaled by the same factor and the
aspect ratio is never distorted) centered on the source: the longer axis
is trimmed symmetrically around the center. -/
theorem processImage_thumbnail_centerCrop (img : ImageBuffer) (p : ProcessedImage)
    (dw dh : Nat) (hdec : img.sharpDecode = some (dw, dh))
    (hp : processImage img = some p) :
    p.thumbnail = ⟨400, 400⟩ ∧
    (coverResize400 dw dh).2 = ⟨400, 400⟩ ∧
    (coverResize400 dw dh).1.width = min dw dh ∧
    (coverResize400 dw dh).1.height = min dw dh ∧
    (coverResize400 dw dh).1.left = (dw - min dw dh) / 2 ∧
    (coverResize400 dw dh).1.top = (dh - min dw dh) / 2 := by
  obtain ⟨ow, oh, w, h, dw2, dh2, hso, htw, hth, hdec2, hpe⟩ :=
    processImage_eq_some img p hp
  rw [hdec] at hdec2
  injection hdec2 with hdec2
  injection hdec2 with hdw hdh2
  subst hdw
  subst hdh2
  subst hpe
  obtain ⟨hcw, hch, hcl, hct⟩ := coverCrop_spec dw dh
  exact ⟨rfl, rfl, hcw, hch, hcl, hct⟩

/-- C4, witness: the thumbnail of the 3000 by 2000 scenario image is 400
by 400, cut from the centered 2000 by 2000 square (left offset 500, top
offset 0). -/
theorem processImage_thumbnail_centerCrop_witness :
    imgWide.sharpDecode = some (3000, 2000) ∧
    processImage imgWide = some imgWideOut ∧
    (imgWideOut.thumbnail = ⟨400, 400⟩ ∧
     (coverResize400 3000 2000).2 = ⟨400, 400⟩ ∧
     (coverResize400 3000 2000).1.width = min 3000 2000 ∧
     (coverResize400 3000 2000).1.height = min 3000 2000 ∧
     (coverResize400 3000 2000).1.left = (3000 - min 3000 2000) / 2 ∧
     (coverResize400 3000 2000).1.top = (2000 - min 3000 2000) / 2) :=
  ⟨rfl, by decide,
   processImage_thumbnail_centerCrop imgWide imgWideOut 3000 2000 rfl (by decide)⟩

/-! ### Claim C10 — missing metadata fields skip their guards -/

/-- C10, confirmed.  For a buffer of at most 50 MiB whose metadata parse
succeeds but reports no format field, with no reported dimension truthily
exceeding 8000 px, `validateImage` returns valid: the format guard is
conditional on the field being reported, so such input passes without its
format ever being checked. -/
theorem validateImage_missing_format_passes (len : Nat) (m : SharpMetadata)
    (hlen : len ≤ maxFileBytes) (hf : m.format = none)
    (hw : truthyDimGt m.width 8000 = false)
    (hh : truthyDimGt m.height 8000 = false) :
    validateImage len (some m) = .valid := by
  simp [validateImage, Nat.not_lt.mpr hlen, hw, hh, truthyFormatBad, hf]

/-- C10, witness: a 10 byte buffer reporting 100 by 100 dimensions and no
format passes validation. -/
theorem validateImage_missing_format_passes_witness :
    10 ≤ maxFileBytes ∧
    validateImage 10 (some ⟨none, some 100, some 100⟩) = .valid :=
  ⟨by decide,
   validateImage_missing_format_passes 10 ⟨none, some 100, some 100⟩
     (by decide) rfl (by decide) (by decide)⟩

/-! ### Shared facts about the process-upload route -/

lemma processUpload_trace_spec (env : StorageEnv) (k : String) :
    (processUpload env k).2.deleteAttempts = [] ∧
    (processUpload env k).2.written ⊆ [thumbKeyFor k, mediumKeyFor k] ∧
    (env.putOk (thumbKeyFor k) = false → (processUpload env k).2.written = []) := by
  unfold processUpload
  cases env.object k with
  | none => exact ⟨rfl, by simp, fun _ => rfl⟩
  | some img =>
    dsimp only
    cases validateImage img.bufLen img.sharpMeta with
    | invalid e => exact ⟨rfl, by simp, fun _ => rfl⟩
    | valid =>
      dsimp only
      cases processImage img with
      | none => exact ⟨rfl, by simp, fun _ => rfl⟩
      | some p =>
        dsimp only
        by_cases h1 : env.putOk (thumbKeyFor k) = true
        · by_cases h2 : env.putOk (mediumKeyFor k) = true
          · simp only [h1, h2, if_true]
            exact ⟨by simp, List.Subset.refl _, fun hc => Bool.noConfusion hc⟩
          · have h2f : env.putOk (mediumKeyFor k) = false := by
              revert h2; cases env.putOk (mediumKeyFor k) <;> simp
            simp only [h1, if_true, h2f, Bool.false_eq_true, if_false]
            refine ⟨by simp, ?_, fun hc => Bool.noConfusion hc⟩
            intro x hx
            simp only [List.mem_singleton] at hx
            simp [hx]
        · have h1f : env.putOk (thumbKeyFor k) = false := by
            revert h1; cases env.putOk (thumbKeyFor k) <;> simp
          simp only [h1f, Bool.false_eq_true, if_false]
          exact ⟨by simp, List.nil_subset _, by simp⟩

lemma processUpload_ok_spec (env : StorageEnv) (k : String)
    (iu tu mu bh : String) (w h fs : Nat)
    (hok : (processUpload env k).1 = .ok iu tu mu bh w h fs) :
    ∃ img p, env.object k = some img ∧ processImage img = some p ∧
      iu = getPublicUrl k ∧ tu = getPublicUrl (thumbKeyFor k) ∧
      mu = getPublicUrl (mediumKeyFor k) ∧ bh = p.blurHash ∧
      w = p.origWidth ∧ h = p.origHeight ∧ fs = p.fileSize := by
  unfold processUpload at hok
  cases hobj : env.object k with
  | none => rw [hobj] at hok; exact absurd hok (by simp)
  | some img =>
    rw [hobj] at hok
    dsimp only at hok
    cases hv : validateImage img.bufLen img.sharpMeta with
    | invalid e => rw [hv] at hok; exact absurd hok (by simp)
    | valid =>
      rw [hv] at hok
      dsimp only at hok
      cases hpi : processImage img with
      | none => rw [hpi] at hok; exact absurd hok (by simp)
      | some p =>
        rw [hpi] at hok
        dsimp only at hok
        by_cases h1 : env.putOk (thumbKeyFor k) = true
        · by_cases h2 : env.putOk (mediumKeyFor k) = true
          · simp only [h1, h2, if_true] at hok
            refine ⟨img, p, rfl, hpi, ?_⟩
            injection hok with e1 e2 e3 e4 e5 e6 e7
            exact ⟨e1.symm, e2.symm, e3.symm, e4.symm, e5.symm, e6.symm, e7.symm⟩
          · have h2f : env.putOk (mediumKeyFor k) = false := by
              revert h2; cases env.putOk (mediumKeyFor k) <;> simp
            simp only [h1, if_true, h2f, Bool.false_eq_true, if_false] at hok
            exact absurd hok (by simp)
        · have h1f : env.putOk (thumbKeyFor k) = false := by
            revert h1; cases env.putOk (thumbKeyFor k) <;> simp
          simp only [h1f, Bool.false_eq_true, if_false] at hok
          exact absurd hok (by simp)

/-! ### Claim C3 — no compensating cleanup on publish failure -/

/-- C3, counterexample.  With the medium write failing after the
thumbnail write succeeded, the route throws, leaves the thumbnail
derivative written, and attempts no deletion at all — the claimed
best-effort compensating cleanup does not exist in the code. -/
theorem publish_no_cleanup_cex :
    processUpload envMediumPutFails "uploads/u1/7-art.jpg"
      = (.thrown "upload failed", ⟨["uploads/u1/7-art.jpg-thumb"], []⟩) ∧
    (processUpload envMediumPutFails "uploads/u1/7-art.jpg").2.written ≠ [] ∧
    (processUpload envMediumPutFails "uploads/u1/7-art.jpg").2.deleteAttempts = [] := by
  refine ⟨by decide, by decide, by decide⟩

/-- C3, amended.  The derivative writes are attempted sequentially under
the two fixed keys; a failing thumbnail write aborts the route before the
medium write; and the route never attempts any delete, so on a failed
publish no compensating cleanup happens (deleteFile exists in storage.ts
but is not called here). -/
theorem processUpload_no_delete_attempts (env : StorageEnv) (k : String) :
    (processUpload env k).2.deleteAttempts = [] ∧
    (processUpload env k).2.written ⊆ [thumbKeyFor k, mediumKeyFor k] ∧
    (env.putOk (thumbKeyFor k) = false → (processUpload env k).2.written = []) :=
  processUpload_trace_spec env k

/-- C3, witness: the amended statement at the failing-medium-write
storage. -/
theorem processUpload_no_delete_attempts_witness :
    (processUpload envMediumPutFails "uploads/u1/7-art.jpg").2.deleteAttempts = [] ∧
    (processUpload envMediumPutFails "uploads/u1/7-art.jpg").2.written ⊆
      [thumbKeyFor "uploads/u1/7-art.jpg", mediumKeyFor "uploads/u1/7-art.jpg"] ∧
    (envMediumPutFails.putOk (thumbKeyFor "uploads/u1/7-art.jpg") = false →
      (processUpload envMediumPutFails "uploads/u1/7-art.jpg").2.written = []) :=
  processUpload_no_delete_attempts envMediumPutFails "uploads/u1/7-art.jpg"

/-! ### Claim C5 — scope rejection before any bytes move -/

/-- C5, confirmed.  A ticket request declaring a content type outside the
allowed set or a byte size above 50 MiB is rejected with zero storage
interactions and zero database writes: the zod size bound and the content
type check both run before the presigner is ever invoked. -/
theorem requestUpload_scope_rejection (userId fileName contentType : String)
    (fileSize now : Nat)
    (h : contentType ∉ validTypes ∨ maxFileBytes < fileSize) :
    ∃ e, requestUpload userId fileName contentType fileSize now =
      (.rejected e, ⟨0, 0⟩) := by
  unfold requestUpload
  by_cases hs : maxFileBytes < fileSize
  · exact ⟨"Invalid request body", by simp [hs]⟩
  · have hc : contentType ∉ validTypes := by tauto
    exact ⟨"Invalid file type", by simp [hs, hc]⟩

/-- C5, witness: a PDF ticket request is rejected with no storage call and
no database write. -/
theorem requestUpload_scope_rejection_witness :
    ("application/pdf" ∉ validTypes ∨ maxFileBytes < 4000000) ∧
    ∃ e, requestUpload "u1" "doc.pdf" "application/pdf" 4000000 99 =
      (.rejected e, ⟨0, 0⟩) :=
  ⟨Or.inl (by decide),
   requestUpload_scope_rejection "u1" "doc.pdf" "application/pdf" 4000000 99
     (Or.inl (by decide))⟩

/-! ### Claim C6 — repeat completion publishes under the same keys -/

/-- C6, confirmed.  The route is a function of the stored object and the
write outcomes alone, so a second call for the same objectKey against the
same storage returns the same result; every derivative is written only
under the two keys computed from the objectKey plus a fixed suffix; and a
success reports exactly the URLs of those deterministic keys — a repeat
call can never publish under a new key. -/
theorem processUpload_idempotent_keys (env env2 : StorageEnv) (k : String)
    (hobj : env.object k = env2.object k)
    (hput : ∀ key, env.putOk key = env2.putOk key) :
    processUpload env k = processUpload env2 k ∧
    (processUpload env k).2.written ⊆ [thumbKeyFor k, mediumKeyFor k] ∧
    (∀ iu tu mu bh w h fs, (processUpload env k).1 = .ok iu tu mu bh w h fs →
      iu = getPublicUrl k ∧ tu = getPublicUrl (thumbKeyFor k) ∧
      mu = getPublicUrl (mediumKeyFor k)) := by
  refine ⟨?_, (processUpload_trace_spec env k).2.1, ?_⟩
  · unfold processUpload
    simp only [hobj, hput]
  · intro iu tu mu bh w h fs hok
    obtain ⟨img, p, -, -, h1, h2, h3, -⟩ := processUpload_ok_spec env k iu tu mu bh w h fs hok
    exact ⟨h1, h2, h3⟩

/-- C6, witness: two calls against the same all-writes-succeed storage
agree, and the success URLs are the deterministic suffixed keys. -/
theorem processUpload_idempotent_keys_witness :
    processUpload envAllOk "uploads/u1/7-art.jpg" =
      processUpload envAllOk "uploads/u1/7-art.jpg" ∧
    (processUpload envAllOk "uploads/u1/7-art.jpg").2.written ⊆
      [thumbKeyFor "uploads/u1/7-art.jpg", mediumKeyFor "uploads/u1/7-art.jpg"] ∧
    (∀ iu tu mu bh w h fs,
      (processUpload envAllOk "uploads/u1/7-art.jpg").1 = .ok iu tu mu bh w h fs →
      iu = getPublicUrl "uploads/u1/7-art.jpg" ∧
      tu = getPublicUrl (thumbKeyFor "uploads/u1/7-art.jpg") ∧
      mu = getPublicUrl (mediumKeyFor "uploads/u1/7-art.jpg")) :=
  processUpload_idempotent_keys envAllOk envAllOk "uploads/u1/7-art.jpg" rfl
    (fun _ => rfl)

/-! ### Claim C7 — reported dimensions are not the metadata of the validator -/

/-- C7, counterexample.  On a buffer whose sharp metadata header says 100
by 100 while image-size says 200 by 150, validation passes using the sharp
metadata, yet the success result reports 200 by 150: the stage after
validation re-derives the dimensions from the bytes with a different
parser, so the validator's metadata is not the single source of truth. -/
theorem result_dims_not_from_validator_cex :
    imgMismatch.sharpMeta = some ⟨some "jpeg", some 100, some 100⟩ ∧
    validateImage imgMismatch.bufLen imgMismatch.sharpMeta = .valid ∧
    (processUpload envMismatch "k7").1 =
      .ok (getPublicUrl "k7") (getPublicUrl (thumbKeyFor "k7"))
          (getPublicUrl (mediumKeyFor "k7")) "bhM" 200 150 1000 ∧
    (200 ≠ 100) := by
  refine ⟨rfl, by decide, by decide, by decide⟩

/-- C7, amended.  The validator returns only a boolean and an error
string; its metadata is discarded.  The width and height in a success
result are re-derived by processImage from the independent image-size
parse of the same bytes (and the byte size from the buffer), not taken
from the metadata the validator inspected. -/
theorem processUpload_dims_from_sizeOf (env : StorageEnv) (k iu tu mu bh : String)
    (w h fs : Nat)
    (hok : (processUpload env k).1 = .ok iu tu mu bh w h fs) :
    ∃ img ow oh, env.object k = some img ∧ img.sizeOfRes = some (ow, oh) ∧
      truthyNat ow = some w ∧ truthyNat oh = some h ∧ fs = img.bufLen := by
  obtain ⟨img, p, hobj, hpi, -, -, -, -, hw, hh, hfs⟩ :=
    processUpload_ok_spec env k iu tu mu bh w h fs hok
  obtain ⟨ow, oh, w2, h2, dw, dh, hso, htw, hth, -, hpe⟩ :=
    processImage_eq_some img p hpi
  subst hpe
  exact ⟨img, ow, oh, hobj, hso, by rw [hw]; exact htw, by rw [hh]; exact hth,
    by rw [hfs]⟩

/-- C7, witness: the amended statement at the parser-disagreement storage,
where the reported 200 by 150 are the truthy image-size fields. -/
theorem processUpload_dims_from_sizeOf_witness :
    (processUpload envMismatch "k7").1 =
      .ok (getPublicUrl "k7") (getPublicUrl (thumbKeyFor "k7"))
          (getPublicUrl (mediumKeyFor "k7")) "bhM" 200 150 1000 ∧
    ∃ img ow oh, envMismatch.object "k7" = some img ∧
      img.sizeOfRes = some (ow, oh) ∧ truthyNat ow = some 200 ∧
      truthyNat oh = some 150 ∧ 1000 = img.bufLen :=
  ⟨by decide,
   processUpload_dims_from_sizeOf envMismatch "k7" (getPublicUrl "k7")
     (getPublicUrl (thumbKeyFor "k7")) (getPublicUrl (mediumKeyFor "k7"))
     "bhM" 200 150 1000 (by decide)⟩

/-! ### Claim C9 — no expiry enforcement during processing -/

lemma validateImage_never_expired (len : Nat) (meta : Option SharpMetadata) :
    validateImage len meta ≠ .invalid "expired" := by
  cases meta with
  | none => simp [validateImage]
  | some m =>
    simp only [validateImage]
    split_ifs <;> decide

/-- C9, counterexample.  A ticket issued at time 0 expires at time 300,
yet processing the uploaded object at time 10000 — long after expiry —
returns full success: the route performs no expiry check, so an expired
attempt is reported as success, contradicting the claim. -/
theorem expired_attempt_success_cex :
    0 + presignExpirySeconds < 10000 ∧
    (processUploadAt 10000 envTicketed (fileKeyFor "u1" "a.jpg" 0)).1 =
      .ok (getPublicUrl (fileKeyFor "u1" "a.jpg" 0))
          (getPublicUrl (thumbKeyFor (fileKeyFor "u1" "a.jpg" 0)))
          (getPublicUrl (mediumKeyFor (fileKeyFor "u1" "a.jpg" 0)))
          "bhW" 3000 2000 4000000 := by
  refine ⟨by decide, by decide⟩

/-- C9, amended.  The processing route reads no clock: its outcome is
identical at every wall-clock time, so attempts finishing after ticket
expiry are handled exactly like timely ones, and no result is ever
tagged with an expired failure — the only expiry in the code is the 300
second window of the presigned upload URL itself. -/
theorem processUpload_no_expiry_check (n1 n2 : Nat) (env : StorageEnv)
    (k : String) :
    processUploadAt n1 env k = processUploadAt n2 env k ∧
    (processUpload env k).1 ≠ .validationError "expired" ∧
    (processUpload env k).1 ≠ .thrown "expired" := by
  refine ⟨rfl, ?_⟩
  unfold processUpload
  cases env.object k with
  | none =>
    dsimp only
    exact ⟨by decide, by decide⟩
  | some img =>
    dsimp only
    cases hv : validateImage img.bufLen img.sharpMeta with
    | invalid e =>
      dsimp only
      constructor
      · intro hc
        injection hc with hc
        exact validateImage_never_expired img.bufLen img.sharpMeta (by rw [hv, hc])
      · intro hc
        exact ProcessUploadResponse.noConfusion hc
    | valid =>
      dsimp only
      cases processImage img with
      | none =>
        dsimp only
        exact ⟨by decide, by decide⟩
      | some p =>
        dsimp only
        by_cases h1 : env.putOk (thumbKeyFor k) = true
        · by_cases h2 : env.putOk (mediumKeyFor k) = true
          · simp only [h1, h2, if_true]
            exact ⟨by simp, by simp⟩
          · have h2f : env.putOk (mediumKeyFor k) = false := by
              revert h2; cases env.putOk (mediumKeyFor k) <;> simp
            simp only [h1, if_true, h2f, Bool.false_eq_true, if_false]
            exact ⟨by decide, by decide⟩
        · have h1f : env.putOk (thumbKeyFor k) = false := by
            revert h1; cases env.putOk (thumbKeyFor k) <;> simp
          simp only [h1f, Bool.false_eq_true, if_false]
          exact ⟨by decide, by decide⟩

/-- C9, witness: time-independence and absence of an expired failure at
the ticketed storage. -/
theorem processUpload_no_expiry_check_witness :
    processUploadAt 0 envTicketed (fileKeyFor "u1" "a.jpg" 0) =
      processUploadAt 10000 envTicketed (fileKeyFor "u1" "a.jpg" 0) ∧
    (processUpload envTicketed (fileKeyFor "u1" "a.jpg" 0)).1 ≠
      .validationError "expired" ∧
    (processUpload envTicketed (fileKeyFor "u1" "a.jpg" 0)).1 ≠
      .thrown "expired" :=
  processUpload_no_expiry_check 0 10000 envTicketed (fileKeyFor "u1" "a.jpg" 0)

/-! ### Claim C8 — upload ticket invariants -/

lemma strData_append (a b : String) : (a ++ b).data = a.data ++ b.data := by
  cases a
  cases b
  rfl

lemma strExt (a b : String) (h : a.data = b.data) : a = b := by
  cases a
  cases b
  exact congrArg String.mk h

lemma slash_data : "/".data = ['/'] := rfl

lemma dash_data : "-".data = ['-'] := rfl

/-- Splitting at the first slash is unambiguous when neither candidate
prefix contains a slash. -/
lemma append_slash_inj : ∀ (u1 u2 r1 r2 : List Char),
    ('/' : Char) ∉ u1 → ('/' : Char) ∉ u2 →
    u1 ++ '/' :: r1 = u2 ++ '/' :: r2 → u1 = u2 ∧ r1 = r2 := by
  intro u1
  induction u1 with
  | nil =>
    intro u2 r1 r2 h1 h2 heq
    cases u2 with
    | nil => simpa using heq
    | cons c u2t =>
      simp only [List.nil_append, List.cons_append, List.cons.injEq] at heq
      exact absurd (by rw [heq.1]; exact List.mem_cons_self c u2t) h2
  | cons c u1t ih =>
    intro u2 r1 r2 h1 h2 heq
    cases u2 with
    | nil =>
      simp only [List.nil_append, List.cons_append, List.cons.injEq] at heq
      exact absurd (by rw [heq.1]; exact List.mem_cons_self _ u1t) h1
    | cons d u2t =>
      simp only [List.cons_append, List.cons.injEq] at heq
      obtain ⟨hcd, htl⟩ := heq
      have h1t : ('/' : Char) ∉ u1t := fun hm => h1 (List.mem_cons_of_mem _ hm)
      have h2t : ('/' : Char) ∉ u2t := fun hm => h2 (List.mem_cons_of_mem _ hm)
      obtain ⟨he, hr⟩ := ih u2t r1 r2 h1t h2t htl
      exact ⟨by rw [hcd, he], hr⟩

lemma fileKeyFor_data (u f : String) (t : Nat) :
    (fileKeyFor u f t).data =
      "uploads/".data ++ (u.data ++ '/' :: ((toString t).data ++ '-' :: f.data)) := by
  simp [fileKeyFor, strData_append, slash_data, dash_data, List.append_assoc]

/-- C8, counterexample.  Two tickets requested by the same owner for the
same file name within the same millisecond receive the same object key
(`Date.now()` is the only varying component), so distinct tickets do not
always have distinct keys. -/
theorem duplicate_ticket_key_cex :
    issueTickets [("u1", "a.jpg", 5), ("u1", "a.jpg", 5)] =
      ["uploads/u1/5-a.jpg", "uploads/u1/5-a.jpg"] ∧
    ¬ (issueTickets [("u1", "a.jpg", 5), ("u1", "a.jpg", 5)]).Nodup := by
  refine ⟨by decide, by decide⟩

/-- C8, amended.  Every issued key is namespaced under the owner id; the
ticket payload carries the fixed 300 second (five minute) expiry and the
deterministic key; keys of distinct slash-free owners never collide (no
cross-tenant overwrite), and for a fixed owner and timestamp distinct
file names give distinct keys — but uniqueness across tickets holds only
as far as owner, file name or issuance millisecond differ (see the
counterexample for the same-millisecond collision). -/
theorem uploadTicket_invariants (u1 u2 f1 f2 ct : String) (sz t1 t2 : Nat)
    (hu1 : ('/' : Char) ∉ u1.data) (hu2 : ('/' : Char) ∉ u2.data) :
    (∃ rest, fileKeyFor u1 f1 t1 = "uploads/" ++ u1 ++ "/" ++ rest) ∧
    (∀ url key exp eff,
      requestUpload u1 f1 ct sz t1 = (.ok url key exp, eff) →
      exp = 300 ∧ key = fileKeyFor u1 f1 t1) ∧
    (u1 ≠ u2 → fileKeyFor u1 f1 t1 ≠ fileKeyFor u2 f2 t2) ∧
    (f1 ≠ f2 → fileKeyFor u1 f1 t1 ≠ fileKeyFor u1 f2 t1) := by
  refine ⟨⟨toString t1 ++ "-" ++ f1, ?_⟩, ?_, ?_, ?_⟩
  · apply strExt
    simp [fileKeyFor, strData_append, List.append_assoc]
  · intro url key exp eff heq
    unfold requestUpload at heq
    by_cases hs : maxFileBytes < sz
    · rw [if_pos hs] at heq
      exact absurd heq (by simp)
    · rw [if_neg hs] at heq
      by_cases hc : ct ∉ validTypes
      · rw [if_pos hc] at heq
        exact absurd heq (by simp)
      · rw [if_neg hc] at heq
        injection heq with h1 h2
        injection h1 with e1 e2 e3
        exact ⟨e3.symm, by rw [← e2]; rfl⟩
  · intro hne heq
    have hd := congrArg String.data heq
    rw [fileKeyFor_data, fileKeyFor_data] at hd
    have hd2 := List.append_cancel_left hd
    exact hne (strExt _ _ (append_slash_inj _ _ _ _ hu1 hu2 hd2).1)
  · intro hne heq
    have hd := congrArg String.data heq
    rw [fileKeyFor_data, fileKeyFor_data] at hd
    have hd2 := List.append_cancel_left hd
    have hd3 := List.append_cancel_left hd2
    simp only [List.cons.injEq, true_and] at hd3
    have hd4 := List.append_cancel_left hd3
    simp only [List.cons.injEq, true_and] at hd4
    exact hne (strExt _ _ hd4)

/-- C8, witness: the amended invariants at two concrete owners u1 and u2
with distinct file names and timestamps. -/
theorem uploadTicket_invariants_witness :
    (('/' : Char) ∉ "u1".data) ∧ (('/' : Char) ∉ "u2".data) ∧
    ((∃ rest, fileKeyFor "u1" "a.jpg" 1 = "uploads/" ++ "u1" ++ "/" ++ rest) ∧
     (∀ url key exp eff,
       requestUpload "u1" "a.jpg" "image/png" 4000000 1 = (.ok url key exp, eff) →
       exp = 300 ∧ key = fileKeyFor "u1" "a.jpg" 1) ∧
     ("u1" ≠ "u2" → fileKeyFor "u1" "a.jpg" 1 ≠ fileKeyFor "u2" "b.jpg" 2) ∧
     ("a.jpg" ≠ "b.jpg" → fileKeyFor "u1" "a.jpg" 1 ≠ fileKeyFor "u1" "b.jpg" 1)) :=
  ⟨by decide, by decide,
   uploadTicket_invariants "u1" "u2" "a.jpg" "b.jpg" "image/png" 4000000 1 2
     (by decide) (by decide)⟩

end Exhibit
